import Mathlib

/-!
# Verification of the figma-mcp-server core logic

This file gives a shallow embedding, in Lean 4, of the core logic of the
figma-mcp-server repository (`src/server.ts`, `src/handlers/figma.ts`,
`src/figma-tools.ts`, `src/utils/validation.ts`) and proves the stated
properties of its specification against that embedding.

Embedded components:
* identifier validation (`safeFigmaId`, from `src/utils/validation.ts`);
* the variable dependency graph and cycle detector
  (`buildDependencyGraph`, `detectCycles`, `validateReferences`);
* the tool dispatcher (`callTool`) with its unknown-tool and catch-all
  error envelopes;
* the LRU/TTL cache boundary and the `get-file` / `list-files` handlers
  with their upstream-error rephrasing;
* the batch `delete_variables` handler;
* the health snapshot and the `/health` endpoint status split;
* the Figma API statistics callback (average latency aggregation).

JavaScript `Map`s are modelled as association lists with unique keys,
mutable `Set`s as lists threaded through the recursion, machine time as
`Nat` milliseconds, latencies as `ℚ` (JS numbers on the paths used here
perform exact division of small integers), and the upstream HTTP API as an
oracle function supplied as a parameter. Fallible code returns `Except`.
-/

namespace FigmaMCP

/-! ## String utilities

Substring search, used to model both the `\.\.` alternative of the
`UNSAFE_ID_RE` regular expression in `src/utils/validation.ts` and the
`error.message.includes("404")` / `includes("403")` checks of the tool
handlers in `src/handlers/figma.ts`. -/

/-- Test `listStartsWith l pat`: `pat` is an initial segment of `l`. -/
def listStartsWith : List Char → List Char → Bool
  | _, [] => true
  | [], _ :: _ => false
  | c :: cs, p :: ps => c == p && listStartsWith cs ps

/-- Test `listHasSub l pat`: `pat` occurs contiguously inside `l`. -/
def listHasSub : List Char → List Char → Bool
  | [], pat => pat.isEmpty
  | c :: cs, pat => listStartsWith (c :: cs) pat || listHasSub cs pat

/-- String containment, as JavaScript `String.prototype.includes`. -/
def strContains (s pat : String) : Bool :=
  listHasSub s.data pat.data

/-! ## Identifier validation (`src/utils/validation.ts`)

The source validates every untrusted identifier with the zod schema
`safeFigmaId = z.string().min(1).refine(s => !UNSAFE_ID_RE.test(s))`
where `UNSAFE_ID_RE = /[/\\\n\r\0]|\.\./`. -/

/-- One character of the character class `[/\\\n\r\0]` of `UNSAFE_ID_RE`. -/
def forbiddenIdChar (c : Char) : Bool :=
  c == '/' || c == '\\' || c == '\n' || c == '\r' || c == Char.ofNat 0

/-- The test `UNSAFE_ID_RE.test(s)`: the character class matches somewhere,
or the string contains the substring `..`. -/
def forbiddenIdTest (s : String) : Bool :=
  s.data.any forbiddenIdChar || strContains s ".."

/-- The `safeFigmaId` zod schema as a boolean acceptor: non-empty
(`.min(1)`) and not matched by `UNSAFE_ID_RE` (`.refine`). -/
def safeFigmaId (s : String) : Bool :=
  decide (1 ≤ s.length) && !forbiddenIdTest s

/-- ASCII control characters (code points below 32, and DEL). Used to state
the specification sentence about control characters; not part of the
source. -/
def isAsciiControl (c : Char) : Bool :=
  decide (c.toNat < 32) || decide (c.toNat = 127)

/-! ## Dependency graph (`buildDependencyGraph`, `src/handlers/figma.ts`)

The graph is a JavaScript `Map<string, string[]>`; we model it as an
association list with unique keys in insertion order. -/

/-- A variable record as consumed by `buildDependencyGraph` and
`validateReferences`: `id`, `name`, `resolvedType`, and
`valuesByMode?.default?.referencedVariableId` (optional). -/
structure FigmaVarRec where
  id : String
  name : String
  resolvedType : String
  referencedVariableId : Option String
deriving DecidableEq

/-- The dependency graph `Map<string, string[]>`. -/
abbrev Graph : Type := List (String × List String)

/-- The lookup `graph.get(k) || []`. -/
def lookupGraph (g : Graph) (k : String) : List String :=
  match g.find? (fun e => e.1 == k) with
  | some e => e.2
  | none => []

/-- The guard `if (!graph.has(s)) graph.set(s, [])`. -/
def insertEmptyKey (g : Graph) (s : String) : Graph :=
  if g.any (fun e => e.1 == s) then g else g ++ [(s, [])]

/-- The push `graph.get(s)!.push(t)`. -/
def pushTarget (g : Graph) (s t : String) : Graph :=
  g.map (fun e => if e.1 == s then (e.1, e.2 ++ [t]) else e)

/-- The builder `buildDependencyGraph(variables)`: for every variable of resolved type
`VARIABLE_REFERENCE`, ensure a (possibly empty) adjacency entry and push
the referenced variable id when present. -/
def buildDependencyGraph (vars : List FigmaVarRec) : Graph :=
  vars.foldl
    (fun graph v =>
      if v.resolvedType == "VARIABLE_REFERENCE" then
        let g1 := insertEmptyKey graph v.id
        match v.referencedVariableId with
        | some t => pushTarget g1 v.id t
        | none => g1
      else graph)
    []

/-! ## Cycle detection (`detectCycles`, `src/handlers/figma.ts`)

The source recursion mutates two shared `Set`s: `visited` (monotone across
the whole traversal) and `path` (the current branch; every addition is
undone before a `false` return, and a `true` return short-circuits the
whole traversal). We model `visited` by threading it through the result
and `path` by passing the branch value down. The `fuel` argument bounds
the recursion depth; `none` means the bound was hit, and a theorem below
shows that `g.length + 1` fuel is always enough, so the embedded function
is total in the same sense as the source. -/

/-- The `for (const dep of dependencies)` loop body of `detectCycles`:
recurse into each dependency, short-circuiting on `true` and threading the
`visited` set. `f` is the recursion at the next smaller fuel. -/
def cycleLoop (f : Graph → String → List String → List String →
    Option (Bool × List String)) (g : Graph) :
    List String → List String → List String → Option (Bool × List String)
  | [], visited, _ => some (false, visited)
  | d :: rest, visited, path =>
    match f g d visited path with
    | none => none
    | some (true, v) => some (true, v)
    | some (false, v) => cycleLoop f g rest v path

/-- The recursion `detectCycles(graph, start, visited, path)`, with
explicit fuel. -/
def detectCycles : Nat → Graph → String → List String → List String →
    Option (Bool × List String)
  | 0, _, _, _, _ => none
  | fuel + 1, g, start, visited, path =>
    if path.contains start then some (true, visited)
    else if visited.contains start then some (false, visited)
    else cycleLoop (detectCycles fuel) g (lookupGraph g start)
      (start :: visited) (start :: path)

/-- The call `this.detectCycles(graph, varId)` as issued by
`validateReferences`: fresh `visited` and `path`, with fuel that always
suffices, since the recursion depth is bounded by the number of graph
entries plus one. -/
def hasCycle (g : Graph) (s : String) : Bool :=
  match detectCycles (g.length + 1) g s [] [] with
  | some (b, _) => b
  | none => false

/-! ## Reference validation (`validateReferences`, `src/handlers/figma.ts`)

We embed the validation loop (lines 1020-1048), which runs between the
upstream fetch of the variable list and the formatting of the response:
given the fetched variables and the optional `variableIds` argument it
accumulates `(variableId, error)` pairs. `variableIds || [...graph.keys()]`
is modelled with `Option.getD` (a JavaScript array is truthy even when
empty, so only a missing argument falls back to the keys). -/

def validateReferences (vars : List FigmaVarRec)
    (variableIds : Option (List String)) : List (String × String) :=
  let graph := buildDependencyGraph vars
  let varsToCheck := variableIds.getD (graph.map Prod.fst)
  varsToCheck.foldl
    (fun results varId =>
      if vars.any (fun v => v.id == varId) = false then
        results ++ [(varId, "Variable not found")]
      else
        let r1 :=
          if hasCycle graph varId then
            results ++ [(varId, "Circular reference detected")]
          else results
        (lookupGraph graph varId).foldl
          (fun r depId =>
            if vars.any (fun v => v.id == depId) then r
            else r ++ [(varId, "Referenced variable " ++ depId ++ " not found")])
          r1)
    []

/-! ## Batch deletion (`deleteVariables`, `src/handlers/figma.ts`)

The handler fetches the authoritative variable list, then maps every
requested id to one outcome line via `Promise.all`; a per-item upstream
failure is caught inside the item and rendered as a line, never thrown.
The upstream DELETE call is an oracle from the endpoint path to an
`Except`. -/

/-- The outcome line for one id of a `delete_variables` batch. -/
def deleteItemOutcome (vars : List FigmaVarRec) (fileKey : String)
    (softDelete : Bool) (upstreamDelete : String → Except String Unit)
    (id : String) : String :=
  match vars.find? (fun v => v.id == id) with
  | none => "Variable " ++ id ++ " not found"
  | some varRec =>
    match upstreamDelete ("/files/" ++ fileKey ++ "/variables/" ++ id) with
    | .ok _ =>
      "Deleted " ++ varRec.name ++ (if softDelete then " (soft delete)" else "")
    | .error msg =>
      "Failed to delete " ++ varRec.name ++ ": " ++ msg

/-- The batch handler `deleteVariables`: one outcome line per requested
id. -/
def deleteVariables (vars : List FigmaVarRec) (fileKey : String)
    (softDelete : Bool) (upstreamDelete : String → Except String Unit)
    (variableIds : List String) : List String :=
  variableIds.map (deleteItemOutcome vars fileKey softDelete upstreamDelete)

/-! ## Tool dispatch (`callTool`, `src/handlers/figma.ts` lines 605-653)

`callTool` switches on the tool name; the default branch returns a
structured `isError` result naming the unknown tool, and the surrounding
`try`/`catch` converts a `ZodError` or any other thrown `Error` into a
structured error result. Handlers are a record of functions over an opaque
argument type; a thrown exception is an `Except.error`. -/

/-- A structured tool result: the `isError` flag and the `text` content. -/
structure CallResult where
  isError : Bool
  text : String
deriving DecidableEq

/-- An exception escaping a handler: a zod validation error (rendered
message list) or any other `Error` (its message). -/
inductive Thrown where
  | zod (msg : String)
  | err (msg : String)

/-- The eight tool handlers reachable from the `switch` of `callTool`. -/
structure Handlers (α : Type) where
  createReference : α → Except Thrown CallResult
  validateRefs : α → Except Thrown CallResult
  createTheme : α → Except Thrown CallResult
  deleteVars : α → Except Thrown CallResult
  updateVars : α → Except Thrown CallResult
  createVars : α → Except Thrown CallResult
  getFile : α → Except Thrown CallResult
  listFiles : α → Except Thrown CallResult

/-- The tool names of the `switch` statement of `callTool` (the dispatch
catalogue). -/
def knownToolNames : List String :=
  ["create_reference", "validate_references", "create_theme",
   "delete_variables", "update_variables", "create_variables",
   "get-file", "list-files"]

/-- The `switch (name)` of `callTool`: route to the named handler, or
return the unknown-tool result from the `default` branch. -/
def dispatchTool {α : Type} (h : Handlers α) (name : String) (args : α) :
    Except Thrown CallResult :=
  if name == "create_reference" then h.createReference args
  else if name == "validate_references" then h.validateRefs args
  else if name == "create_theme" then h.createTheme args
  else if name == "delete_variables" then h.deleteVars args
  else if name == "update_variables" then h.updateVars args
  else if name == "create_variables" then h.createVars args
  else if name == "get-file" then h.getFile args
  else if name == "list-files" then h.listFiles args
  else .ok { isError := true, text := "Unknown tool: " ++ name }

/-- The dispatcher `callTool(name, args)`: the `switch` wrapped in `try`/`catch`, with the
`ZodError` branch and the generic `Error` branch of the source. -/
def callTool {α : Type} (h : Handlers α) (name : String) (args : α) :
    CallResult :=
  match dispatchTool h name args with
  | .ok r => r
  | .error (.zod m) => { isError := true, text := "Invalid arguments: " ++ m }
  | .error (.err m) =>
    { isError := true, text := "Tool execution failed: " ++ m }

/-! ## Cache (`lru-cache` boundary, `src/handlers/figma.ts` lines 458-465)

`new LRUCache({ max: 500, ttl: 1000 * 60 * 5 })`: a bounded, time-expiring
cache. We model it as a list of `(key, value, insertedAt)` triples in
most-recently-inserted-first order; `get` returns a stored value only
while it is fresh, `set` replaces the key and evicts beyond capacity.
(The recency bump that `get` performs on hits only affects eviction order,
which no claim here depends on, and is omitted.) -/

abbrev CacheT (V : Type) : Type := List (String × V × Nat)

/-- The option `ttl: 1000 * 60 * 5` (five minutes, in milliseconds). -/
def cacheTTLms : Nat := 1000 * 60 * 5

/-- The option `max: 500`. -/
def cacheMaxEntries : Nat := 500

/-- The read `cache.get(key)` at time `now`: a stored value is returned only within
its time-to-live. -/
def cacheGet {V : Type} (c : CacheT V) (key : String) (now : Nat) :
    Option V :=
  match c.find? (fun e => e.1 == key) with
  | some e => if now < e.2.2 + cacheTTLms then some e.2.1 else none
  | none => none

/-- The write `cache.set(key, v)` at time `now`: insert at the front, drop any older
entry for the same key, and evict beyond the maximum entry count. -/
def cacheSet {V : Type} (c : CacheT V) (key : String) (v : V) (now : Nat) :
    CacheT V :=
  ((key, v, now) :: c.filter (fun e => !(e.1 == key))).take cacheMaxEntries

/-! ## The `get-file` and `list-files` handlers

`getFigmaFile` (lines 655-709) and `listFigmaFiles` (lines 711-731).
Both parse their argument with `safeFigmaId` (a failure throws a
`ZodError`, outside the `try`), consult the cache under `file:<fileKey>` /
`project:<projectId>`, and on a miss perform exactly one upstream request
and store the decoded body. `getFigmaFile` wraps its body in a
`try`/`catch` that rephrases upstream 404/403 failures; `listFigmaFiles`
has no such `catch`, so an upstream failure propagates to `callTool`.
The upstream API is an oracle from the endpoint path to `Except`; the
response body type `V` and the formatting of a successful body (`render`)
are parameters. -/

/-- Observable outcome of a read handler: the structured result, the body
the result was built from, the cache afterwards, and how many upstream
calls were made. -/
structure HandlerOut (V : Type) where
  res : CallResult
  value : Option V
  cache : CacheT V
  upstreamCalls : Nat

/-- The handler `getFigmaFile(args)` for a `fileKey` argument. -/
def getFigmaFile {V : Type} (render : V → String)
    (upstream : String → Except String V) (cache : CacheT V) (now : Nat)
    (fileKey : String) : Except Thrown (HandlerOut V) :=
  if safeFigmaId fileKey = false then
    .error (.zod ("fileKey: " ++
      "ID contains invalid characters (no path separators or traversal sequences allowed)"))
  else
    let cacheKey := "file:" ++ fileKey
    match cacheGet cache cacheKey now with
    | some fileData =>
      .ok ⟨⟨false, "File details for: " ++ render fileData⟩, some fileData,
        cache, 0⟩
    | none =>
      match upstream ("/files/" ++ fileKey) with
      | .ok fileData =>
        .ok ⟨⟨false, "File details for: " ++ render fileData⟩, some fileData,
          cacheSet cache cacheKey fileData now, 1⟩
      | .error msg =>
        .ok ⟨⟨true,
          if strContains msg "404" then
            "File not found: " ++ fileKey ++
              ". Please verify the file key is correct."
          else if strContains msg "403" then
            "Access denied. Please verify your Figma access token has the correct permissions."
          else "Error accessing file: " ++ msg⟩, none, cache, 1⟩

/-- The handler `listFigmaFiles(args)` for a `projectId` argument. There is
no `try`/`catch` in the source handler: an upstream failure is re-thrown to
`callTool`. -/
def listFigmaFiles {V : Type} (render : V → String)
    (upstream : String → Except String V) (cache : CacheT V) (now : Nat)
    (projectId : String) : Except Thrown (HandlerOut V) :=
  if safeFigmaId projectId = false then
    .error (.zod ("projectId: " ++
      "ID contains invalid characters (no path separators or traversal sequences allowed)"))
  else
    let cacheKey := "project:" ++ projectId
    match cacheGet cache cacheKey now with
    | some filesData =>
      .ok ⟨⟨false, render filesData⟩, some filesData, cache, 0⟩
    | none =>
      match upstream ("/projects/" ++ projectId ++ "/files") with
      | .ok filesData =>
        .ok ⟨⟨false, render filesData⟩, some filesData,
          cacheSet cache cacheKey filesData now, 1⟩
      | .error msg => .error (.err msg)

/-- The dispatcher instantiated with the embedded `get-file` and
`list-files` handlers (argument = the identifier string of the request).
The six remaining handlers are irrelevant to the statements below, which
only ever dispatch to `get-file` and `list-files`; they are filled with a
handler that throws. -/
def readHandlers {V : Type} (render : V → String)
    (upstream : String → Except String V) (cache : CacheT V) (now : Nat) :
    Handlers String where
  createReference := fun _ => .error (.err "not modelled")
  validateRefs := fun _ => .error (.err "not modelled")
  createTheme := fun _ => .error (.err "not modelled")
  deleteVars := fun _ => .error (.err "not modelled")
  updateVars := fun _ => .error (.err "not modelled")
  createVars := fun _ => .error (.err "not modelled")
  getFile := fun fileKey =>
    (getFigmaFile render upstream cache now fileKey).map (fun o => o.res)
  listFiles := fun projectId =>
    (listFigmaFiles render upstream cache now projectId).map (fun o => o.res)

/-! ## Health snapshot (`getHealthStatus`, `src/server.ts` lines 161-185)
and the `/health` route (lines 210-213)

The snapshot fields derived from process metrics (CPU, memory, host data)
are omitted; the fields below are the ones the specification claims speak
about. -/

/-- The process state `ServerState`:
`starting | running | stopping | stopped | error`. -/
inductive SrvState where
  | starting
  | running
  | stopping
  | stopped
  | error
deriving DecidableEq

/-- The health snapshot fields derived by `getHealthStatus`. -/
structure HealthSnapshot where
  state : SrvState
  uptime : Nat
  secondsSinceActivity : Nat
  connectionErrors : Nat
  isHealthy : Bool
  activeSessions : Nat
deriving DecidableEq

/-- The snapshot builder `getHealthStatus()`: in particular
`isHealthy: this.state === "running" && this.connectionErrors < 5`. -/
def getHealthStatus (state : SrvState) (startTime lastActivityTime now : Nat)
    (connectionErrors : Nat) (activeSessions : Nat) : HealthSnapshot where
  state := state
  uptime := (now - startTime) / 1000
  secondsSinceActivity := (now - lastActivityTime) / 1000
  connectionErrors := connectionErrors
  isHealthy := decide (state = SrvState.running) && decide (connectionErrors < 5)
  activeSessions := activeSessions

/-- The `/health` route: `res.status(health.isHealthy ? 200 : 503)`. -/
def healthEndpointStatus (h : HealthSnapshot) : Nat :=
  if h.isHealthy then 200 else 503

/-! ## Figma API statistics (`src/server.ts` lines 78-98, 527-560)

The `FigmaHandler` reports each completed upstream call through a stats
callback carrying a `Partial<FigmaApiCallStats>`; the `MCPServer`
constructor folds such updates into `figmaApiStats`. The latency branch
is `averageApiLatency = totalTime / stats.apiResponseTimes.length` — an
overwrite with the mean of just the reported batch. `makeFigmaRequest`
always reports a single-sample batch `[responseTime]`, on success and on
failure alike. Latencies are rationals (exact JS arithmetic on these
paths); the rate-limit and last-error fields, which the latency claim does
not mention, are omitted. -/

/-- The accumulated `figmaApiStats` of `MCPServer`. -/
structure FigmaApiStatsRec where
  totalApiCalls : Nat
  failedApiCalls : Nat
  averageApiLatency : ℚ
deriving DecidableEq

/-- One `Partial<FigmaApiCallStats>` update, as passed to the stats
callback. A missing `apiResponseTimes` field is `none`. -/
structure StatsUpdate where
  totalApiCalls : Nat
  failedApiCalls : Nat
  apiResponseTimes : Option (List ℚ)
deriving DecidableEq

/-- The stats callback installed by the `MCPServer` constructor: counters
accumulate (guarded by JavaScript truthiness of the fields), while
`averageApiLatency` is overwritten with the mean of the reported batch. -/
def applyStatsUpdate (s : FigmaApiStatsRec) (u : StatsUpdate) :
    FigmaApiStatsRec :=
  let s1 :=
    if u.totalApiCalls ≠ 0 then
      { s with totalApiCalls := s.totalApiCalls + u.totalApiCalls }
    else s
  let s2 :=
    if u.failedApiCalls ≠ 0 then
      { s1 with failedApiCalls := s1.failedApiCalls + u.failedApiCalls }
    else s1
  match u.apiResponseTimes with
  | some ts =>
    { s2 with averageApiLatency := ts.sum / (ts.length : ℚ) }
  | none => s2

/-- The update `makeFigmaRequest` issues after a successful call:
`{ totalApiCalls: 1, apiResponseTimes: [responseTime] }`. -/
def statsOnSuccess (latency : ℚ) : StatsUpdate where
  totalApiCalls := 1
  failedApiCalls := 0
  apiResponseTimes := some [latency]

/-- The update `makeFigmaRequest` issues after a failed call:
`{ totalApiCalls: 1, failedApiCalls: 1, apiResponseTimes: [responseTime] }`. -/
def statsOnFailure (latency : ℚ) : StatsUpdate where
  totalApiCalls := 1
  failedApiCalls := 1
  apiResponseTimes := some [latency]

/-- The effect on `figmaApiStats` of one completed upstream call. -/
def recordApiCall (s : FigmaApiStatsRec) (latency : ℚ) (failed : Bool) :
    FigmaApiStatsRec :=
  applyStatsUpdate s (if failed then statsOnFailure latency else statsOnSuccess latency)

/-! ## Concrete inputs used by the theorems -/

/-- Variables realising the cycle `{A→B, B→C, C→A}`. -/
def cycVars : List FigmaVarRec :=
  [⟨"A", "A", "VARIABLE_REFERENCE", some "B"⟩,
   ⟨"B", "B", "VARIABLE_REFERENCE", some "C"⟩,
   ⟨"C", "C", "VARIABLE_REFERENCE", some "A"⟩]

/-- Variables realising the diamond `{A→B, A→C, B→D, C→D}` (two records
share id `A`, giving `A` two outgoing edges), with `D` a plain variable. -/
def diamondVars : List FigmaVarRec :=
  [⟨"A", "A", "VARIABLE_REFERENCE", some "B"⟩,
   ⟨"A", "A", "VARIABLE_REFERENCE", some "C"⟩,
   ⟨"B", "B", "VARIABLE_REFERENCE", some "D"⟩,
   ⟨"C", "C", "VARIABLE_REFERENCE", some "D"⟩,
   ⟨"D", "D", "COLOR", none⟩]

/-- Variables realising the self-loop `{A→A}`. -/
def selfLoopVars : List FigmaVarRec :=
  [⟨"A", "A", "VARIABLE_REFERENCE", some "A"⟩]

/-- One variable `A` referencing an id `Z` that is absent from the set. -/
def danglingVars : List FigmaVarRec :=
  [⟨"A", "A", "VARIABLE_REFERENCE", some "Z"⟩]

/-- Variable set for the batch-deletion example: ids `v1` and `v3` exist,
`v2` does not. -/
def batchVars : List FigmaVarRec :=
  [⟨"v1", "n1", "COLOR", none⟩, ⟨"v3", "n3", "COLOR", none⟩]

/-- The cycle graph itself, as consumed by `detectCycles`. -/
def cycGraph : Graph := [("A", ["B"]), ("B", ["C"]), ("C", ["A"])]

/-- The diamond graph itself. -/
def diamondGraph : Graph := [("A", ["B", "C"]), ("B", ["D"]), ("C", ["D"])]

/-! ## Theorems for the claims -/

/-- C1: on the graph `{A→B, B→C, C→A}` the validator flags `A`, `B` and
`C` as circular references; on the diamond `{A→B, A→C, B→D, C→D}` it flags
nothing; on the self-loop `{A→A}` it flags `A`; and at the `detectCycles`
level the traversal reports a cycle exactly on the expected start nodes,
handling self-reference, diamond convergence, and disconnected nodes. -/
theorem detectCycles_behavior :
    validateReferences cycVars none =
      [("A", "Circular reference detected"), ("B", "Circular reference detected"),
       ("C", "Circular reference detected")]
  ∧ validateReferences diamondVars none = []
  ∧ validateReferences selfLoopVars none = [("A", "Circular reference detected")]
  ∧ buildDependencyGraph cycVars = cycGraph
  ∧ buildDependencyGraph diamondVars = diamondGraph
  ∧ hasCycle cycGraph "A" = true
  ∧ hasCycle cycGraph "B" = true
  ∧ hasCycle cycGraph "C" = true
  ∧ hasCycle diamondGraph "A" = false
  ∧ hasCycle diamondGraph "B" = false
  ∧ hasCycle diamondGraph "C" = false
  ∧ hasCycle diamondGraph "D" = false
  ∧ hasCycle [("A", ["A"])] "A" = true
  ∧ hasCycle cycGraph "E" = false := by
  decide

/-- C4: on `{A→Z}` with `Z` absent from the variable set, `validateReferences`
flags `A` with a dangling-target error naming `Z`, and does not flag `A`
as a circular reference. -/
theorem dangling_reference_flagged :
    validateReferences danglingVars none =
      [("A", "Referenced variable Z not found")]
  ∧ hasCycle (buildDependencyGraph danglingVars) "A" = false := by
  decide

/-- C5: `deleteVariables` always yields exactly one outcome line per
requested id; line `i` is a function of id `i` alone, so one missing or
failing item never alters the other outcomes; and in the concrete batch of
3 ids whose 2nd id is absent, the result is 3 lines with one not-found
line and two success lines. -/
theorem deleteVariables_batch_outcomes :
    (∀ (vars : List FigmaVarRec) (fileKey : String) (softDelete : Bool)
      (upstreamDelete : String → Except String Unit) (ids : List String),
      (deleteVariables vars fileKey softDelete upstreamDelete ids).length
        = ids.length
      ∧ ∀ i : Nat,
          (deleteVariables vars fileKey softDelete upstreamDelete ids)[i]? =
            (ids[i]?).map (deleteItemOutcome vars fileKey softDelete upstreamDelete))
  ∧ deleteVariables batchVars "F" false (fun _ => .ok ()) ["v1", "v2", "v3"] =
      ["Deleted n1", "Variable v2 not found", "Deleted n3"] := by
  constructor
  · intro vars fileKey softDelete upstreamDelete ids
    constructor
    · simp [deleteVariables]
    · intro i
      simp [deleteVariables]
  · decide

/-- C6: the 404-rephrasing policy is not uniform. With an upstream that
answers every endpoint with an HTTP 404 failure, `list-files` surfaces the
generic dispatcher catch-all message (which does not name the requested
project identifier), while `get-file` rephrases the same failure as a
resource-not-found message naming the file key. -/
theorem listFiles_404_not_rephrased :
    callTool
        (readHandlers (fun _ : Unit => "")
          (fun _ => Except.error "Figma API error (404): Not found") [] 0)
        "list-files" "proj1" =
      ⟨true, "Tool execution failed: Figma API error (404): Not found"⟩
  ∧ callTool
        (readHandlers (fun _ : Unit => "")
          (fun _ => Except.error "Figma API error (404): Not found") [] 0)
        "get-file" "key1" =
      ⟨true, "File not found: key1. Please verify the file key is correct."⟩
  ∧ strContains "Tool execution failed: Figma API error (404): Not found"
      "proj1" = false := by
  decide

/-- C2: for every tool name outside the dispatch catalogue and every
argument payload, `callTool` returns the structured unknown-tool error
result, whatever the handlers would do — no handler runs and no exception
escapes. -/
theorem callTool_unknown_tool :
    ∀ (α : Type) (h : Handlers α) (name : String) (args : α),
      name ∉ knownToolNames →
      callTool h name args = ⟨true, "Unknown tool: " ++ name⟩ := by
  intro α h name args hmem
  simp only [knownToolNames, List.mem_cons, List.not_mem_nil, or_false,
    not_or] at hmem
  obtain ⟨h1, h2, h3, h4, h5, h6, h7, h8⟩ := hmem
  simp [callTool, dispatchTool, beq_iff_eq, h1, h2, h3, h4, h5, h6, h7, h8]

/-- Handlers that throw on every invocation, used to witness that
`callTool` does not reach any handler for an unknown name. -/
def throwingHandlers : Handlers Unit where
  createReference := fun _ => .error (.err "boom")
  validateRefs := fun _ => .error (.err "boom")
  createTheme := fun _ => .error (.err "boom")
  deleteVars := fun _ => .error (.err "boom")
  updateVars := fun _ => .error (.err "boom")
  createVars := fun _ => .error (.err "boom")
  getFile := fun _ => .error (.err "boom")
  listFiles := fun _ => .error (.err "boom")

theorem callTool_unknown_tool_witness :
    "frobnicate" ∉ knownToolNames
    ∧ callTool throwingHandlers "frobnicate" () =
        ⟨true, "Unknown tool: " ++ "frobnicate"⟩ :=
  ⟨by decide,
   callTool_unknown_tool Unit throwingHandlers "frobnicate" () (by decide)⟩

/-- C8: the derived health boolean is exactly (state is `running` AND
connection errors strictly below 5); with 6 recorded connection errors it
is `false` even in state `running`; and the `/health` route answers 200
exactly when the boolean is `true` and 503 exactly when it is `false`. -/
theorem health_boolean_spec :
    ∀ (st : SrvState) (startTime lastActivity now errs sessions : Nat),
      ((getHealthStatus st startTime lastActivity now errs sessions).isHealthy
          = true ↔ (st = SrvState.running ∧ errs < 5))
      ∧ (getHealthStatus SrvState.running startTime lastActivity now 6
          sessions).isHealthy = false
      ∧ (healthEndpointStatus
            (getHealthStatus st startTime lastActivity now errs sessions) = 200
          ↔ (getHealthStatus st startTime lastActivity now errs
              sessions).isHealthy = true)
      ∧ (healthEndpointStatus
            (getHealthStatus st startTime lastActivity now errs sessions) = 503
          ↔ (getHealthStatus st startTime lastActivity now errs
              sessions).isHealthy = false) := by
  intro st startTime lastActivity now errs sessions
  refine ⟨by simp [getHealthStatus], by simp [getHealthStatus], ?_, ?_⟩ <;>
    by_cases hb :
      (getHealthStatus st startTime lastActivity now errs sessions).isHealthy
        = true <;>
    simp [healthEndpointStatus, hb]

/-- C9: after any stats update carrying a latency batch, the aggregated
`averageApiLatency` equals the mean of just that batch, regardless of the
previous statistics (an overwrite, not a running average); in particular
each completed call — success or failure — reports a single-sample batch,
leaving the latency of the most recent call alone. -/
theorem averageApiLatency_last_batch :
    (∀ (s : FigmaApiStatsRec) (u : StatsUpdate) (ts : List ℚ),
      u.apiResponseTimes = some ts →
      (applyStatsUpdate s u).averageApiLatency = ts.sum / (ts.length : ℚ))
  ∧ (∀ (s : FigmaApiStatsRec) (l : ℚ) (failed : Bool),
      (recordApiCall s l failed).averageApiLatency = l) := by
  constructor
  · intro s u ts h
    simp [applyStatsUpdate, h]
  · intro s l failed
    cases failed <;>
      simp [recordApiCall, statsOnSuccess, statsOnFailure, applyStatsUpdate]

/-- Prior statistics with a stale average of 100, used to show the
overwrite. -/
def statsDemo : FigmaApiStatsRec := ⟨10, 2, 100⟩

/-- An update carrying the two-sample batch `[3, 5]`. -/
def updateDemo : StatsUpdate := ⟨1, 0, some [3, 5]⟩

theorem averageApiLatency_last_batch_witness :
    (applyStatsUpdate statsDemo updateDemo).averageApiLatency = 4
    ∧ (recordApiCall statsDemo 7 true).averageApiLatency = 7 := by
  constructor
  · have h := averageApiLatency_last_batch.1 statsDemo updateDemo [3, 5] rfl
    rw [h]; norm_num
  · exact averageApiLatency_last_batch.2 statsDemo 7 true

/-- A value stored under `key` is returned by `cacheGet` while its
time-to-live has not elapsed. -/
lemma cacheGet_set_same {V : Type} (c : CacheT V) (key : String) (v : V)
    (t now : Nat) (h : now < t + cacheTTLms) :
    cacheGet (cacheSet c key v t) key now = some v := by
  unfold cacheGet cacheSet cacheMaxEntries
  rw [show (500 : Nat) = 499 + 1 from rfl, List.take_succ_cons]
  rw [List.find?_cons_of_pos _ (by simp)]
  simp [h]

/-- C3: the cached read path of `get-file`. A value stored under
`file:<fileKey>` and still within its TTL is returned exactly as stored,
with zero upstream calls and whatever the upstream oracle would answer;
on a cache miss, exactly one upstream request is made and its decoded
body is stored in the cache that is returned. -/
theorem getFile_cache_behavior :
    ∀ (V : Type) (render : V → String) (upstream : String → Except String V)
      (c : CacheT V) (t now : Nat) (fileKey : String) (v : V),
      safeFigmaId fileKey = true →
      ((now < t + cacheTTLms →
        getFigmaFile render upstream (cacheSet c ("file:" ++ fileKey) v t)
            now fileKey =
          .ok ⟨⟨false, "File details for: " ++ render v⟩, some v,
            cacheSet c ("file:" ++ fileKey) v t, 0⟩)
      ∧ (cacheGet c ("file:" ++ fileKey) now = none →
          ∀ d : V, upstream ("/files/" ++ fileKey) = .ok d →
          getFigmaFile render upstream c now fileKey =
            .ok ⟨⟨false, "File details for: " ++ render d⟩, some d,
              cacheSet c ("file:" ++ fileKey) d now, 1⟩)) := by
  intro V render upstream c t now fileKey v hsafe
  constructor
  · intro hfresh
    rw [getFigmaFile, if_neg (by simp [hsafe])]
    simp [cacheGet_set_same c ("file:" ++ fileKey) v t now hfresh]
  · intro hmiss d hup
    rw [getFigmaFile, if_neg (by simp [hsafe])]
    simp [hmiss, hup]

theorem getFile_cache_behavior_witness :
    safeFigmaId "k" = true
    ∧ (1 < 0 + cacheTTLms)
    ∧ getFigmaFile (fun _ : Nat => "fmt") (fun _ => Except.ok 7)
        (cacheSet [] ("file:" ++ "k") 42 0) 1 "k" =
        .ok ⟨⟨false, "File details for: " ++ "fmt"⟩, some 42,
          cacheSet [] ("file:" ++ "k") 42 0, 0⟩
    ∧ cacheGet ([] : CacheT Nat) ("file:" ++ "k") 1 = none
    ∧ getFigmaFile (fun _ : Nat => "fmt") (fun _ => Except.ok 7) [] 1 "k" =
        .ok ⟨⟨false, "File details for: " ++ "fmt"⟩, some 7,
          cacheSet [] ("file:" ++ "k") 7 1, 1⟩ :=
  ⟨by decide, by decide,
   (getFile_cache_behavior Nat (fun _ => "fmt") (fun _ => Except.ok 7) [] 0 1
      "k" 42 (by decide)).1 (by decide),
   by decide,
   (getFile_cache_behavior Nat (fun _ => "fmt") (fun _ => Except.ok 7) [] 0 1
      "k" 7 (by decide)).2 (by decide) 7 rfl⟩

/-- Characterisation of `listStartsWith`: it holds exactly when the pattern
is an initial segment. -/
lemma listStartsWith_iff :
    ∀ (pat l : List Char), listStartsWith l pat = true ↔ ∃ r, l = pat ++ r := by
  intro pat
  induction pat with
  | nil =>
    intro l
    cases l <;> simp [listStartsWith]
  | cons p ps ih =>
    intro l
    cases l with
    | nil => simp [listStartsWith]
    | cons c cs =>
      rw [listStartsWith]
      simp only [Bool.and_eq_true, beq_iff_eq, ih cs]
      constructor
      · rintro ⟨rfl, r, rfl⟩
        exact ⟨r, rfl⟩
      · rintro ⟨r, hr⟩
        rw [List.cons_append] at hr
        obtain ⟨rfl, rfl⟩ := List.cons.inj hr
        exact ⟨rfl, r, rfl⟩

/-- Characterisation of `listHasSub`: it holds exactly when the pattern
occurs contiguously. -/
lemma listHasSub_iff :
    ∀ (l pat : List Char), listHasSub l pat = true ↔ ∃ p q, l = p ++ pat ++ q := by
  intro l pat
  induction l with
  | nil =>
    rw [listHasSub]
    simp only [List.isEmpty_iff]
    constructor
    · rintro rfl
      exact ⟨[], [], rfl⟩
    · rintro ⟨p, q, h⟩
      rcases List.append_eq_nil.mp h.symm with ⟨h1, h2⟩
      exact (List.append_eq_nil.mp h1).2
  | cons c cs ih =>
    rw [listHasSub]
    simp only [Bool.or_eq_true, listStartsWith_iff pat, ih]
    constructor
    · rintro (⟨r, hr⟩ | ⟨p, q, h⟩)
      · exact ⟨[], r, by simp [hr]⟩
      · exact ⟨c :: p, q, by simp [h]⟩
    · rintro ⟨p, q, h⟩
      cases p with
      | nil =>
        left
        exact ⟨q, by simpa using h⟩
      | cons a as =>
        right
        rw [List.cons_append, List.cons_append] at h
        obtain ⟨rfl, hrest⟩ := List.cons.inj h
        exact ⟨as, q, by simpa using hrest⟩

/-- C7 counterexample: the tab character is an ASCII control character,
yet `safeFigmaId` accepts the string `"a\tb"` that contains it — so the
validator does not reject every string containing a control character. -/
theorem safeFigmaId_control_counterexample :
    isAsciiControl '\t' = true
    ∧ "a\tb".data.any isAsciiControl = true
    ∧ safeFigmaId "a\tb" = true := by
  decide

/-- C7 (amended): `safeFigmaId` accepts a string exactly when it is
non-empty, contains none of the characters `/`, `\`, newline, carriage
return, NUL, and has no `..` substring. (Other control characters, such
as tab, are accepted.) -/
theorem safeFigmaId_spec :
    ∀ s : String, safeFigmaId s = true ↔
      (s.data ≠ []
      ∧ (∀ c ∈ s.data,
          ¬(c = '/' ∨ c = '\\' ∨ c = '\n' ∨ c = '\r' ∨ c = Char.ofNat 0))
      ∧ ¬∃ p q : List Char, s.data = p ++ ['.', '.'] ++ q) := by
  intro s
  have h1 : safeFigmaId s = true ↔
      (1 ≤ s.length ∧ s.data.any forbiddenIdChar = false
        ∧ strContains s ".." = false) := by
    rw [safeFigmaId, forbiddenIdTest]
    cases hany : s.data.any forbiddenIdChar <;>
      cases hcon : strContains s ".." <;> simp
  have hA : (1 ≤ s.length) ↔ s.data ≠ [] := by
    rw [show s.length = s.data.length from rfl]
    constructor
    · intro h hnil
      rw [hnil] at h
      simp at h
    · intro h
      have := List.length_pos.mpr h
      omega
  have hB : (s.data.any forbiddenIdChar = false) ↔
      ∀ c ∈ s.data,
        ¬(c = '/' ∨ c = '\\' ∨ c = '\n' ∨ c = '\r' ∨ c = Char.ofNat 0) := by
    constructor
    · intro h c hc hbad
      have ht : s.data.any forbiddenIdChar = true :=
        List.any_eq_true.mpr
          ⟨c, hc, by rcases hbad with rfl | rfl | rfl | rfl | rfl <;> decide⟩
      rw [ht] at h
      cases h
    · intro h
      cases hany : s.data.any forbiddenIdChar with
      | false => rfl
      | true =>
        obtain ⟨c, hc, hu⟩ := List.any_eq_true.mp hany
        refine absurd ?_ (h c hc)
        rw [forbiddenIdChar] at hu
        simpa [or_assoc] using hu
  have hC : (strContains s ".." = false) ↔
      ¬∃ p q : List Char, s.data = p ++ ['.', '.'] ++ q := by
    constructor
    · intro h hex
      obtain ⟨p, q, hpq⟩ := hex
      have ht : strContains s ".." = true := by
        rw [strContains]
        exact (listHasSub_iff s.data "..".data).mpr ⟨p, q, hpq⟩
      rw [ht] at h
      cases h
    · intro h
      cases hcon : strContains s ".." with
      | false => rfl
      | true =>
        obtain ⟨p, q, hpq⟩ := (listHasSub_iff s.data "..".data).mp
          (by rw [strContains] at hcon; exact hcon)
        exact absurd ⟨p, q, hpq⟩ h
  rw [h1, hA, hB, hC]

theorem safeFigmaId_spec_witness :
    "ab:c.d-9".data ≠ []
    ∧ (∀ c ∈ "ab:c.d-9".data,
        ¬(c = '/' ∨ c = '\\' ∨ c = '\n' ∨ c = '\r' ∨ c = Char.ofNat 0))
    ∧ ¬∃ p q : List Char, "ab:c.d-9".data = p ++ ['.', '.'] ++ q :=
  (safeFigmaId_spec "ab:c.d-9").mp (by decide)

/-! ## Termination of `detectCycles`

The recursion depth of `detectCycles` is bounded: a node is only pushed
onto the current path when it is not already there, and it can only have
outgoing edges when it is a key of the graph, so the nesting depth never
exceeds the number of graph keys not yet on the path. Hence fuel
`g.length + 1` always suffices. -/

/-- Number of graph keys not on the current path: the measure that shrinks
at every recursive descent of `detectCycles`. -/
def numKeysNotIn (g : Graph) (p : List String) : Nat :=
  (g.map Prod.fst).countP (fun k => !(p.contains k))

/-- A node with a non-empty adjacency list is a key of the graph. -/
lemma mem_keys_of_lookup_ne_nil (g : Graph) (s : String)
    (h : lookupGraph g s ≠ []) : s ∈ g.map Prod.fst := by
  rw [lookupGraph] at h
  cases hf : g.find? (fun e => e.1 == s) with
  | none => rw [hf] at h; exact absurd rfl h
  | some e =>
    have hmem : e ∈ g := List.mem_of_find?_eq_some hf
    have hpred := List.find?_some hf
    have he : e.1 = s := by simpa using hpred
    rw [← he]
    exact List.mem_map_of_mem Prod.fst hmem

/-- Pushing a key that is not yet on the path strictly shrinks the count
of keys off the path. -/
lemma countP_notIn_cons_lt (ks : List String) (p : List String) (s : String)
    (hmem : s ∈ ks) (hnp : s ∉ p) :
    ks.countP (fun k => !((s :: p).contains k))
      < ks.countP (fun k => !(p.contains k)) := by
  induction ks with
  | nil => cases hmem
  | cons k ks ih =>
    by_cases hks : k = s
    · subst hks
      have h1 : ¬((fun x => !((k :: p).contains x)) k = true) := by
        simp [List.contains_cons]
      have h2 : (fun x => !(p.contains x)) k = true := by simpa using hnp
      have hmono : ks.countP (fun x => !((k :: p).contains x))
          ≤ ks.countP (fun x => !(p.contains x)) := by
        refine List.countP_mono_left ?_
        intro a _ ha
        simp only [List.contains_cons, Bool.not_eq_true', Bool.or_eq_false_iff]
          at ha
        simpa using ha.2
      rw [List.countP_cons_of_neg (fun x => !((k :: p).contains x)) ks h1,
        List.countP_cons_of_pos (fun x => !(p.contains x)) ks h2]
      omega
    · have hmem2 : s ∈ ks := by
        cases List.mem_cons.mp hmem with
        | inl h => exact absurd h.symm hks
        | inr h => exact h
      rw [List.countP_cons, List.countP_cons]
      have heq : (!((s :: p).contains k)) = (!(p.contains k)) := by
        have hc : ((s :: p).contains k) = (p.contains k) := by
          simp only [List.contains_cons]
          have hb : (k == s) = false := by
            simpa using hks
          rw [hb, Bool.false_or]
        rw [hc]
      simp only [heq]
      have := ih hmem2
      omega

/-- If the recursion at the next fuel level always answers on the current
path, so does the dependency loop, whatever the threaded visited set. -/
lemma cycleLoop_isSome
    {f : Graph → String → List String → List String → Option (Bool × List String)}
    {g : Graph} {path : List String}
    (hf : ∀ s v, (f g s v path).isSome = true) :
    ∀ (deps visited : List String),
      (cycleLoop f g deps visited path).isSome = true := by
  intro deps
  induction deps with
  | nil => intro v; rw [cycleLoop]; rfl
  | cons d rest ih =>
    intro v
    rw [cycleLoop]
    cases hfd : f g d v path with
    | none =>
      have := hf d v
      rw [hfd] at this
      cases this
    | some bv =>
      cases bv with
      | mk b v2 =>
          cases b with
          | true => rfl
          | false => exact ih v2

/-- Fuel larger than the number of graph keys off the path always
suffices: `detectCycles` answers instead of running out. -/
lemma detectCycles_isSome_of_fuel :
    ∀ (fuel : Nat) (g : Graph) (s : String) (visited path : List String),
      numKeysNotIn g path < fuel →
      (detectCycles fuel g s visited path).isSome = true := by
  intro fuel
  induction fuel with
  | zero => intro g s v p h; omega
  | succ fuel ih =>
    intro g s v p h
    rw [detectCycles]
    by_cases hp : s ∈ p
    · simp [hp]
    · by_cases hv : s ∈ v
      · simp [hp, hv]
      · rw [if_neg (by simpa using hp), if_neg (by simpa using hv)]
        cases hdeps : lookupGraph g s with
        | nil =>
          rw [cycleLoop]
          rfl
        | cons d rest =>
          rw [← hdeps]
          refine cycleLoop_isSome ?_ (lookupGraph g s) (s :: v)
          intro s2 v2
          refine ih g s2 v2 (s :: p) ?_
          have hkey : s ∈ g.map Prod.fst :=
            mem_keys_of_lookup_ne_nil g s (by rw [hdeps]; exact List.cons_ne_nil d rest)
          have hlt := countP_notIn_cons_lt (g.map Prod.fst) p s hkey hp
          rw [numKeysNotIn] at h ⊢
          omega

/-- C10: `detectCycles` terminates on every finite graph and start node,
cycles included — with fuel one more than the number of graph entries the
traversal always returns an answer from empty visited and path sets, since
every descent adds a fresh node to the path, bounded by the key set. -/
theorem detectCycles_terminates :
    ∀ (g : Graph) (s : String),
      (detectCycles (g.length + 1) g s [] []).isSome = true := by
  intro g s
  refine detectCycles_isSome_of_fuel (g.length + 1) g s [] [] ?_
  have h1 : numKeysNotIn g [] ≤ (g.map Prod.fst).length := by
    rw [numKeysNotIn]
    exact List.countP_le_length _
  have h2 : (g.map Prod.fst).length = g.length := List.length_map _ _
  omega

end FigmaMCP
